import Mathlib

/-!
Verification of the `DictionaryDatabase` class in `KhmerEnglish_Dictionary.py`
(the "Lexicon Store" of the specification).

Modelling choices, each traced to the source:

* Text values (Python `str`, SQLite `TEXT`) are lists of Unicode code points
  (`List Nat`).  `Python`'s `str.lower()` and `str.strip()` and SQLite's
  `LIKE` case folding are modelled on the ASCII fragment, which covers every
  string the program manipulates specially (only `A`-`Z` are folded by
  SQLite's default `LIKE`, and only ASCII whitespace appears in the claims).
* SQLite's `LIKE` operator (used by `read_word` with patterns
  `f"%{term}%"`) is modelled by an executable matcher `like` with the real
  `LIKE` semantics: `%` (code 37) matches any sequence, `_` (code 95)
  matches any single character, and ordinary characters compare
  ASCII-case-insensitively.
* A table row is an `Entry`; the database state is the list of rows plus the
  `AUTOINCREMENT` counter.  `ORDER BY english_word` / `ORDER BY khmer_word`
  are insertion sorts by the code-point order of the column (SQLite's
  default `BINARY` collation orders UTF-8 bytes, which coincides with
  code-point order).
* Each method opens its own connection; a connection failure or any other
  persistence fault is modelled by an `Option Str` fault parameter carrying
  the underlying message.  The `try/except` blocks of the source become the
  fault branches: `read_word`, `read_all_words` and `get_random_words`
  return `[]` on a fault (their `except ...: return []`), while
  `create_word`, `update_word` and `delete_word` surface a `ValueError`
  (modelled by `DbErr`) exactly as the source's `raise ValueError(...)`.
* `ORDER BY RANDOM()` in `get_random_words` is modelled by passing the
  shuffled row list as a parameter; theorems quantify over all permutations
  of the stored rows.
* `CURRENT_TIMESTAMP` is modelled by a `now : Nat` parameter.
-/

/-! ## Strings as code-point lists -/

/-- Text values: lists of Unicode code points, as in a Python `str`. -/
abbrev Str := List Nat

/-- Code points of a string literal (convenience for concrete inputs). -/
def codes (s : String) : Str := s.data.map Char.toNat

/-- ASCII lower-casing of a single code point: models Python's `str.lower`
and SQLite's default `LIKE` folding on the ASCII letters `A`-`Z`. -/
def lowerChar (c : Nat) : Nat := if 65 ≤ c ∧ c ≤ 90 then c + 32 else c

/-- Python's `str.lower()` on the ASCII fragment. -/
def pyLower (s : Str) : Str := s.map lowerChar

/-- ASCII whitespace, the characters removed by Python's `str.strip()`. -/
def isWs (c : Nat) : Bool := c == 32 || c == 9 || c == 10 || c == 13 || c == 11 || c == 12

/-- Python's `str.strip()`: drop leading and trailing whitespace. -/
def pyStrip (s : Str) : Str := ((s.dropWhile isWs).reverse.dropWhile isWs).reverse

/-! ## SQLite `LIKE` -/

/-- SQLite's `LIKE` operator, `like p s` matching string `s` against pattern
`p`: `%` (37) matches any sequence of characters, `_` (95) matches exactly
one character, and any other pattern character matches a single character
ASCII-case-insensitively.  Structural recursion on the pattern (the `%`
branch tries every suffix of `s`). -/
def like : List Nat → List Nat → Bool
  | [], s => s.isEmpty
  | c :: p, s =>
    if c = 37 then s.tails.any (fun t => like p t)
    else
      match s with
      | [] => false
      | d :: s' => if c = 95 then like p s' else (lowerChar c == lowerChar d) && like p s'

/-- The pattern `f"%{t}%"` built by `read_word`. -/
def likePat (t : Str) : List Nat := 37 :: (t ++ [37])

/-- A term containing neither `LIKE` wildcard (`%` = 37, `_` = 95). -/
def noWild (t : Str) : Bool := t.all (fun c => !(c == 37) && !(c == 95))

/-! ## Rows, states, errors -/

/-- One row of the `dictionary` table (see `init_database`). -/
structure Entry where
  id : Nat
  english_word : Str
  khmer_word : Str
  word_type : Str
  definition : Str
  example_sentence : Str
  created_at : Nat
  updated_at : Nat
deriving DecidableEq

/-- The persistent state: the rows of the `dictionary` table together with
the `AUTOINCREMENT` counter for `id`. -/
structure DbState where
  entries : List Entry
  next_id : Nat
deriving DecidableEq

/-- Table invariants guaranteed by the schema: `id` is the `PRIMARY KEY`
(no two rows share it, and `AUTOINCREMENT` keeps the counter above every
row), and `english_word` is declared `UNIQUE`. -/
def WF (st : DbState) : Prop :=
  (st.entries.map Entry.id).Nodup ∧
  (st.entries.map Entry.english_word).Nodup ∧
  ∀ r ∈ st.entries, r.id < st.next_id

/-- The `ValueError`s raised by `DictionaryDatabase`, one constructor per
`raise` site: `duplicate w` is `create_word`'s "Word '{w}' already exists in
dictionary", `storage m` is `create_word`'s "Database error: {m}",
`updateError m` is `update_word`'s "Update error: {m}", and
`deleteError m` is `delete_word`'s "Delete error: {m}". -/
inductive DbErr where
  | duplicate (word : Str)
  | storage (msg : Str)
  | updateError (msg : Str)
  | deleteError (msg : Str)
deriving DecidableEq

/-- The message of the `sqlite3.IntegrityError` raised when the `UNIQUE`
constraint on `english_word` fails. -/
def uniqueFailMsg : Str := codes "UNIQUE constraint failed: dictionary.english_word"

/-- The `search_type` argument of `read_word` (`"english"` selects the first
branch, anything else the `khmer` branch). -/
inductive SearchType where
  | english
  | khmer
deriving DecidableEq

/-! ## Orderings used by `ORDER BY` -/

/-- Code-point-wise lexicographic comparison of strings, the order produced
by SQLite's default `BINARY` collation on UTF-8 text. -/
def leStr : Str → Str → Bool
  | [], _ => true
  | _ :: _, [] => false
  | a :: as, b :: bs => if a < b then true else if b < a then false else leStr as bs

/-- `ORDER BY english_word` comparison on rows. -/
def srcLe (a b : Entry) : Prop := leStr a.english_word b.english_word = true

/-- `ORDER BY khmer_word` comparison on rows. -/
def tgtLe (a b : Entry) : Prop := leStr a.khmer_word b.khmer_word = true

instance : DecidableRel srcLe := fun a b => by unfold srcLe; infer_instance

instance : DecidableRel tgtLe := fun a b => by unfold tgtLe; infer_instance

theorem leStr_cons {a b : Nat} {as bs : Str} :
    leStr (a :: as) (b :: bs) = true ↔ a < b ∨ (a = b ∧ leStr as bs = true) := by
  simp only [leStr]
  by_cases h1 : a < b
  · simp [h1]
  · by_cases h2 : b < a
    · simp only [if_neg h1, if_pos h2]
      constructor
      · intro h; exact absurd h (by simp)
      · rintro (h | ⟨h, _⟩) <;> omega
    · have hab : a = b := by omega
      simp [h1, h2, hab]

theorem leStr_total : ∀ a b : Str, leStr a b = true ∨ leStr b a = true
  | [], _ => .inl rfl
  | _ :: _, [] => .inr rfl
  | a :: as, b :: bs => by
    rw [leStr_cons, leStr_cons]
    rcases Nat.lt_trichotomy a b with h | h | h
    · exact .inl (.inl h)
    · rcases leStr_total as bs with h' | h'
      · exact .inl (.inr ⟨h, h'⟩)
      · exact .inr (.inr ⟨h.symm, h'⟩)
    · exact .inr (.inl h)

theorem leStr_trans : ∀ a b c : Str, leStr a b = true → leStr b c = true → leStr a c = true
  | [], _, _, _, _ => rfl
  | _ :: _, [], _, h, _ => by simp [leStr] at h
  | _ :: _, _ :: _, [], _, h => by simp [leStr] at h
  | a :: as, b :: bs, c :: cs, h1, h2 => by
    rw [leStr_cons] at h1 h2 ⊢
    rcases h1 with h1 | ⟨h1, h1'⟩ <;> rcases h2 with h2 | ⟨h2, h2'⟩
    · exact .inl (by omega)
    · exact .inl (by omega)
    · exact .inl (by omega)
    · exact .inr ⟨by omega, leStr_trans as bs cs h1' h2'⟩

instance : IsTotal Entry srcLe := ⟨fun a b => leStr_total a.english_word b.english_word⟩

instance : IsTrans Entry srcLe :=
  ⟨fun a b c => leStr_trans a.english_word b.english_word c.english_word⟩

instance : IsTotal Entry tgtLe := ⟨fun a b => leStr_total a.khmer_word b.khmer_word⟩

instance : IsTrans Entry tgtLe :=
  ⟨fun a b c => leStr_trans a.khmer_word b.khmer_word c.khmer_word⟩

/-! ## The six operations of `DictionaryDatabase` -/

/-- `create_word(english_word, khmer_word, word_type="noun", definition="",
example="")`: inserts `(english_word.lower().strip(), khmer_word.strip(),
word_type, definition, example)`; a `UNIQUE` violation on `english_word`
becomes the "already exists" `ValueError` (interpolating the raw argument),
any other fault the "Database error" one; on success returns
`cursor.lastrowid`. -/
def create_word (fault : Option Str) (now : Nat) (st : DbState)
    (english khmer word_type df ex : Str) : Except DbErr Nat × DbState :=
  match fault with
  | some m => (.error (.storage m), st)
  | none =>
    if st.entries.any (fun r => r.english_word == pyStrip (pyLower english)) then
      (.error (.duplicate english), st)
    else
      (.ok st.next_id,
       ⟨st.entries ++
          [⟨st.next_id, pyStrip (pyLower english), pyStrip khmer, word_type, df, ex, now, now⟩],
        st.next_id + 1⟩)

/-- `read_word(search_term, search_type)`: for `"english"`,
`WHERE english_word LIKE '%{term.lower()}%' OR english_word = term.lower()
ORDER BY english_word`; otherwise `WHERE khmer_word LIKE '%{term}%'
ORDER BY khmer_word`; every exception is swallowed and `[]` returned. -/
def read_word (fault : Option Str) (st : DbState) (term : Str) (ty : SearchType) :
    List Entry :=
  match fault with
  | some _ => []
  | none =>
    match ty with
    | .english =>
        (st.entries.filter (fun r =>
          like (likePat (pyLower term)) r.english_word || r.english_word == pyLower term)
        ).insertionSort srcLe
    | .khmer =>
        (st.entries.filter (fun r => like (likePat term) r.khmer_word)).insertionSort tgtLe

/-- `read_all_words()`: `SELECT * FROM dictionary ORDER BY english_word`;
every exception is swallowed and `[]` returned. -/
def read_all_words (fault : Option Str) (st : DbState) : List Entry :=
  match fault with
  | some _ => []
  | none => st.entries.insertionSort srcLe

/-- The `english_word` value the `UPDATE` statement writes: the normalised
new value when the field is supplied (`english_word.lower().strip()`), the
row's current value otherwise (an unsupplied field is simply absent from the
`SET` list, so the stored value stays). -/
def normSrc (english : Option Str) (r : Entry) : Str :=
  match english with
  | some w => pyStrip (pyLower w)
  | none => r.english_word

/-- `update_word(word_id, ...)`: builds a `SET` list from the supplied
(non-`None`) fields, always appends `updated_at = CURRENT_TIMESTAMP`, and
runs `UPDATE ... WHERE id = ?`; returns whether a row was affected.  A
`UNIQUE` violation on the new `english_word` — like every other exception —
is caught by the single `except Exception` and re-raised as the generic
"Update error: {msg}" `ValueError`, with the transaction never committed. -/
def update_word (fault : Option Str) (now : Nat) (st : DbState) (word_id : Nat)
    (english khmer word_type df ex : Option Str) : Except DbErr Bool × DbState :=
  match fault with
  | some m => (.error (.updateError m), st)
  | none =>
    match st.entries.find? (fun r => r.id == word_id) with
    | none => (.ok false, st)
    | some r =>
      if st.entries.any (fun o => !(o.id == word_id) && o.english_word == normSrc english r) then
        (.error (.updateError uniqueFailMsg), st)
      else
        (.ok true,
         ⟨st.entries.map (fun o =>
            if o.id == word_id then
              { o with
                english_word := normSrc english r
                khmer_word := (khmer.map pyStrip).getD o.khmer_word
                word_type := word_type.getD o.word_type
                definition := df.getD o.definition
                example_sentence := ex.getD o.example_sentence
                updated_at := now }
            else o),
          st.next_id⟩)

/-- `delete_word(word_id)`: `DELETE FROM dictionary WHERE id = ?`, returning
whether a row was deleted; exceptions become the "Delete error" `ValueError`. -/
def delete_word (fault : Option Str) (st : DbState) (word_id : Nat) :
    Except DbErr Bool × DbState :=
  match fault with
  | some m => (.error (.deleteError m), st)
  | none =>
    (.ok (st.entries.any (fun r => r.id == word_id)),
     ⟨st.entries.filter (fun r => !(r.id == word_id)), st.next_id⟩)

/-- `get_random_words(limit)`: `SELECT * FROM dictionary ORDER BY RANDOM()
LIMIT ?`.  The random shuffle produced by `ORDER BY RANDOM()` is passed in
as `shuffle` (theorems quantify over every permutation of the stored rows);
exceptions are swallowed and `[]` returned. -/
def get_random_words (fault : Option Str) (shuffle : List Entry) (limit : Nat) :
    List Entry :=
  match fault with
  | some _ => []
  | none => shuffle.take limit

/-- Variant of the `"english"` branch of `read_word` with the redundant
`OR english_word = ?` clause removed, stated from the claim's words ("removing
the equality clause yields an equivalent function") for the refinement
comparison of claim C10. -/
def read_word_noEq (fault : Option Str) (st : DbState) (term : Str) : List Entry :=
  match fault with
  | some _ => []
  | none =>
    (st.entries.filter (fun r => like (likePat (pyLower term)) r.english_word)
    ).insertionSort srcLe

/-- Recogniser for the duplicate-entry error, used to state that an error is
not of that kind. -/
def isDuplicateErr : DbErr → Bool
  | .duplicate _ => true
  | _ => false

deriving instance DecidableEq for Except

instance (st : DbState) : Decidable (WF st) := by unfold WF; infer_instance

/-! ## Character-level lemmas -/

theorem lowerChar_idem (c : Nat) : lowerChar (lowerChar c) = lowerChar c := by
  unfold lowerChar
  by_cases h : 65 ≤ c ∧ c ≤ 90
  · rw [if_pos h, if_neg (by omega)]
  · rw [if_neg h, if_neg h]

theorem pyLower_idem (s : Str) : pyLower (pyLower s) = pyLower s := by
  unfold pyLower
  rw [List.map_map]
  exact List.map_congr_left fun c _ => lowerChar_idem c

theorem isWs_lowerChar (c : Nat) : isWs (lowerChar c) = isWs c := by
  rw [Bool.eq_iff_iff]
  simp only [isWs, lowerChar, Bool.or_eq_true, beq_iff_eq]
  split <;> omega

theorem pyStrip_pyLower (s : Str) : pyStrip (pyLower s) = pyLower (pyStrip s) := by
  have hws : isWs ∘ lowerChar = isWs := funext isWs_lowerChar
  simp only [pyStrip, pyLower]
  rw [List.dropWhile_map, hws, ← List.map_reverse, List.dropWhile_map, hws, ← List.map_reverse]

theorem noWild_lowerChar (c : Nat) :
    (!(lowerChar c == 37) && !(lowerChar c == 95)) = (!(c == 37) && !(c == 95)) := by
  rw [Bool.eq_iff_iff]
  simp only [Bool.and_eq_true, Bool.not_eq_true', beq_eq_false_iff_ne, ne_eq, lowerChar]
  split <;> omega

theorem noWild_pyLower {t : Str} (h : noWild t = true) : noWild (pyLower t) = true := by
  unfold noWild pyLower at *
  rw [List.all_map]
  rw [show ((fun c => !(c == 37) && !(c == 95)) ∘ lowerChar)
        = (fun c => !(c == 37) && !(c == 95)) from funext fun c => noWild_lowerChar c]
  exact h

/-! ## `LIKE` matcher lemmas -/

theorem like_pct_unfold (p u : List Nat) :
    like (37 :: p) u = u.tails.any (fun t => like p t) := rfl

theorem like_pct_nil (u : Str) : like [37] u = true := by
  rw [show ([37] : List Nat) = 37 :: [] from rfl, like_pct_unfold]
  rw [List.any_eq_true]
  refine ⟨[], ?_, rfl⟩
  rw [List.mem_tails]
  exact List.nil_suffix

/-- Prepending the same literal text to the pattern and the string preserves
a match (every pattern character matches itself). -/
theorem like_prepend : ∀ (t p s : Str), like p s = true → like (t ++ p) (t ++ s) = true
  | [], _, _, h => h
  | c :: t', p, s, h => by
    show like (c :: (t' ++ p)) (c :: (t' ++ s)) = true
    by_cases hc : c = 37
    · subst hc
      rw [like_pct_unfold, List.any_eq_true]
      refine ⟨t' ++ s, ?_, like_prepend t' p s h⟩
      rw [List.mem_tails]
      exact List.suffix_cons 37 (t' ++ s)
    · by_cases hc95 : c = 95
      · simp only [like, if_neg hc, if_pos hc95]
        exact like_prepend t' p s h
      · simp only [like, if_neg hc, if_neg hc95, Bool.and_eq_true, beq_self_eq_true, true_and]
        exact like_prepend t' p s h

/-- Every string matches the pattern `%s%` built from itself (needed because
`read_word` also compares for equality: equality implies a `LIKE` match even
when the term contains wildcard characters). -/
theorem like_likePat_self (t : Str) : like (likePat t) t = true := by
  show like (37 :: (t ++ [37])) t = true
  rw [like_pct_unfold, List.any_eq_true]
  refine ⟨t, ?_, ?_⟩
  · rw [List.mem_tails]
  · have h := like_prepend t [37] [] (like_pct_nil [])
    rwa [List.append_nil] at h

/-- Matching a wildcard-free literal followed by `%`: the string starts with
an ASCII-case-insensitive copy of the literal. -/
theorem like_lit_pct : ∀ (t : Str), noWild t = true → ∀ u : Str,
    (like (t ++ [37]) u = true ↔ ∃ u1 u2 : Str, u = u1 ++ u2 ∧ pyLower u1 = pyLower t)
  | [], _, u => by
    constructor
    · intro _
      exact ⟨[], u, rfl, rfl⟩
    · intro _
      exact like_pct_nil u
  | c :: t', hw, u => by
    have hw' : (!(c == 37) && !(c == 95)) = true ∧ noWild t' = true := by
      unfold noWild at hw
      rw [List.all_cons, Bool.and_eq_true] at hw
      exact hw
    have hc : c ≠ 37 := by
      have := hw'.1
      simp only [Bool.and_eq_true, Bool.not_eq_true', beq_eq_false_iff_ne, ne_eq] at this
      exact this.1
    have hc95 : c ≠ 95 := by
      have := hw'.1
      simp only [Bool.and_eq_true, Bool.not_eq_true', beq_eq_false_iff_ne, ne_eq] at this
      exact this.2
    cases u with
    | nil =>
      show like (c :: (t' ++ [37])) [] = true ↔ _
      simp only [like, if_neg hc]
      constructor
      · intro h; exact absurd h (by simp)
      · rintro ⟨u1, u2, hsplit, hl⟩
        have h1 : u1 = [] := (List.append_eq_nil.mp hsplit.symm).1
        subst h1
        simp [pyLower] at hl
    | cons d u' =>
      show like (c :: (t' ++ [37])) (d :: u') = true ↔ _
      simp only [like, if_neg hc, if_neg hc95, Bool.and_eq_true, beq_iff_eq]
      constructor
      · rintro ⟨hcd, hrest⟩
        obtain ⟨u1, u2, rfl, hl⟩ := (like_lit_pct t' hw'.2 u').mp hrest
        refine ⟨d :: u1, u2, rfl, ?_⟩
        simp only [pyLower, List.map_cons] at hl ⊢
        rw [hl, hcd]
      · rintro ⟨u1, u2, hsplit, hl⟩
        cases u1 with
        | nil => simp [pyLower] at hl
        | cons e u1' =>
          rw [List.cons_append, List.cons.injEq] at hsplit
          obtain ⟨rfl, rfl⟩ := hsplit
          simp only [pyLower, List.map_cons, List.cons.injEq] at hl
          refine ⟨hl.1.symm, (like_lit_pct t' hw'.2 (u1' ++ u2)).mpr ⟨u1', u2, rfl, hl.2⟩⟩

/-- Master characterisation: for a wildcard-free term `t`, the pattern
`f"%{t}%"` matches `s` exactly when the ASCII-lowered `t` occurs as a
contiguous substring of the ASCII-lowered `s` — the semantics SQLite gives
`english_word LIKE '%term%'`. -/
theorem like_likePat_iff {t : Str} (hw : noWild t = true) (s : Str) :
    like (likePat t) s = true ↔ pyLower t <:+: pyLower s := by
  show like (37 :: (t ++ [37])) s = true ↔ _
  rw [like_pct_unfold, List.any_eq_true]
  constructor
  · rintro ⟨u, hu, hlike⟩
    rw [List.mem_tails] at hu
    obtain ⟨u1, u2, rfl, hl⟩ := (like_lit_pct t hw u).mp hlike
    obtain ⟨w, rfl⟩ := hu
    refine ⟨pyLower w, pyLower u2, ?_⟩
    rw [← hl]
    simp [pyLower, List.map_append]
  · rintro ⟨v1, v2, hv⟩
    have hv' : s.map lowerChar = v1 ++ (pyLower t ++ v2) := by
      rw [show s.map lowerChar = pyLower s from rfl, ← hv, List.append_assoc]
    obtain ⟨s1, s23, rfl, hs1, hs23⟩ := List.map_eq_append_iff.mp hv'
    obtain ⟨s2, s3, rfl, hs2, hs3⟩ := List.map_eq_append_iff.mp hs23
    refine ⟨s2 ++ s3, ?_, ?_⟩
    · rw [List.mem_tails]
      exact List.suffix_append s1 (s2 ++ s3)
    · exact (like_lit_pct t hw (s2 ++ s3)).mpr ⟨s2, s3, rfl, hs2⟩

/-- Counting a predicate and its negation over a list accounts for every
element. -/
theorem countP_not_add {α : Type} (p : α → Bool) (l : List α) :
    l.countP (fun a => !(p a)) + l.countP p = l.length := by
  induction l with
  | nil => rfl
  | cons a l ih =>
    rw [List.countP_cons, List.countP_cons, List.length_cons]
    cases h : p a <;> simp [h] <;> omega

/-! ## Claim C1 -/

/-- C1: an `add` whose `source_term`, after lower-casing and trimming, equals
the stored `source_term` of an existing entry fails with the duplicate-entry
error and leaves the store — hence the sequence returned by `listAll()` —
unchanged. -/
theorem create_word_duplicate_rejected (now : Nat) (st : DbState)
    (english khmer word_type df ex : Str)
    (hdup : ∃ r ∈ st.entries, r.english_word = pyStrip (pyLower english)) :
    create_word none now st english khmer word_type df ex
      = (.error (.duplicate english), st) ∧
    read_all_words none (create_word none now st english khmer word_type df ex).2
      = read_all_words none st := by
  obtain ⟨r, hr, hre⟩ := hdup
  have hany : (st.entries.any fun q => q.english_word == pyStrip (pyLower english)) = true := by
    rw [List.any_eq_true]
    exact ⟨r, hr, by simp [hre]⟩
  have h1 : create_word none now st english khmer word_type df ex
      = (.error (.duplicate english), st) := by
    unfold create_word
    rw [if_pos hany]
  exact ⟨h1, by rw [h1]⟩

/-- C1 witness: a concrete store holding `"a"` rejects `add(" A ", ...)`. -/
theorem create_word_duplicate_rejected_witness :
    create_word none 7 ⟨[⟨1, codes "a", codes "k", codes "noun", [], [], 0, 0⟩], 2⟩
        (codes " A ") (codes "z") (codes "noun") [] []
      = (.error (.duplicate (codes " A ")),
         ⟨[⟨1, codes "a", codes "k", codes "noun", [], [], 0, 0⟩], 2⟩) ∧
    read_all_words none
        (create_word none 7 ⟨[⟨1, codes "a", codes "k", codes "noun", [], [], 0, 0⟩], 2⟩
          (codes " A ") (codes "z") (codes "noun") [] []).2
      = read_all_words none ⟨[⟨1, codes "a", codes "k", codes "noun", [], [], 0, 0⟩], 2⟩ :=
  create_word_duplicate_rejected 7 ⟨[⟨1, codes "a", codes "k", codes "noun", [], [], 0, 0⟩], 2⟩
    (codes " A ") (codes "z") (codes "noun") [] [] (by decide)

/-! ## Claim C7 -/

/-- C7: `remove(id)` returns true exactly when a row with that id existed
(deleting every such row), never raises, and in the false case the length of
`listAll()` is unchanged (the `countP` term, zero when no row matches,
accounts for the deleted rows). -/
theorem delete_word_spec (st : DbState) (word_id : Nat) :
    ((delete_word none st word_id).1 = .ok true ↔ ∃ r ∈ st.entries, r.id = word_id) ∧
    ((delete_word none st word_id).1 = .ok true ∨ (delete_word none st word_id).1 = .ok false) ∧
    (delete_word none st word_id).2.entries
      = st.entries.filter (fun r => !(r.id == word_id)) ∧
    (read_all_words none (delete_word none st word_id).2).length
        + st.entries.countP (fun r => r.id == word_id)
      = (read_all_words none st).length := by
  refine ⟨?_, ?_, rfl, ?_⟩
  · show Except.ok (st.entries.any fun r => r.id == word_id) = Except.ok true ↔ _
    simp only [Except.ok.injEq, List.any_eq_true, beq_iff_eq]
  · show Except.ok (st.entries.any fun r => r.id == word_id) = Except.ok true ∨
      Except.ok (st.entries.any fun r => r.id == word_id) = Except.ok false
    cases st.entries.any fun r => r.id == word_id
    · exact .inr rfl
    · exact .inl rfl
  · have h1 : (read_all_words none (delete_word none st word_id).2).length
        = (st.entries.filter (fun r => !(r.id == word_id))).length :=
      (List.perm_insertionSort srcLe _).length_eq
    have h2 : (read_all_words none st).length = st.entries.length :=
      (List.perm_insertionSort srcLe _).length_eq
    rw [h1, h2, ← List.countP_eq_length_filter]
    exact countP_not_add _ _

/-! ## Claim C9 (corrected) -/

/-- C9 counterexample: `listAll` (and the other read operations) mask a
persistence fault as a normal empty result — a store holding one row returns
the same `[]` under a fault as the empty store does normally, so the failure
is swallowed, contradicting the claimed propagation policy. -/
theorem read_operations_mask_faults :
    read_all_words (some (codes "disk I/O error"))
        ⟨[⟨1, codes "a", codes "k", codes "noun", [], [], 0, 0⟩], 2⟩ = [] ∧
    read_all_words none ⟨[⟨1, codes "a", codes "k", codes "noun", [], [], 0, 0⟩], 2⟩
      ≠ [] ∧
    read_all_words none ⟨[], 1⟩ = [] ∧
    read_word (some (codes "disk I/O error"))
        ⟨[⟨1, codes "a", codes "k", codes "noun", [], [], 0, 0⟩], 2⟩ (codes "a") .english = [] ∧
    get_random_words (some (codes "disk I/O error"))
        [⟨1, codes "a", codes "k", codes "noun", [], [], 0, 0⟩] 5 = [] := by
  exact ⟨rfl, by decide, rfl, rfl, rfl⟩

/-- C9 (amended): the write operations propagate a typed error
(`DbErr`, the model of the distinct `ValueError` messages) or return a
boolean, but the read operations — `findBySource`, `findByTarget`,
`listAll` and `randomSample` — swallow every persistence fault and return
the empty sequence, indistinguishable from a normal empty result. -/
theorem faults_propagate_only_on_writes (m : Str) (now word_id limit : Nat)
    (st : DbState) (term : Str) (ty : SearchType) (shuffle : List Entry)
    (english khmer word_type df ex : Str) (oe okh ow odf oex : Option Str) :
    read_word (some m) st term ty = [] ∧
    read_all_words (some m) st = [] ∧
    get_random_words (some m) shuffle limit = [] ∧
    create_word (some m) now st english khmer word_type df ex
      = (.error (.storage m), st) ∧
    update_word (some m) now st word_id oe okh ow odf oex
      = (.error (.updateError m), st) ∧
    delete_word (some m) st word_id = (.error (.deleteError m), st) :=
  ⟨rfl, rfl, rfl, rfl, rfl, rfl⟩

/-! ## Claim C10 -/

/-- C10: the `OR english_word = ?` clause of `read_word` is redundant — the
function with the equality clause removed returns the same sequence for
every store, term and fault, because a string equal to the (lowered) term
always matches the pattern `'%term%'` as well. -/
theorem read_word_eq_clause_redundant (fault : Option Str) (st : DbState) (term : Str) :
    read_word fault st term .english = read_word_noEq fault st term := by
  cases fault with
  | some m => rfl
  | none =>
    show (st.entries.filter _).insertionSort srcLe = (st.entries.filter _).insertionSort srcLe
    congr 1
    apply List.filter_congr
    intro r _
    by_cases h : r.english_word == pyLower term
    · have he : r.english_word = pyLower term := eq_of_beq h
      rw [h, he, like_likePat_self]
      rfl
    · rw [Bool.eq_false_iff.mpr h, Bool.or_false]

/-- Reduction of `update_word` when the `WHERE id = ?` clause selects the
row `r`. -/
theorem update_word_found {now word_id : Nat} {st : DbState}
    {english khmer word_type df ex : Option Str} {r : Entry}
    (hf : st.entries.find? (fun q => q.id == word_id) = some r) :
    update_word none now st word_id english khmer word_type df ex
      = if st.entries.any (fun o => !(o.id == word_id) && o.english_word == normSrc english r)
        then (.error (.updateError uniqueFailMsg), st)
        else
          (.ok true,
           ⟨st.entries.map (fun o =>
              if o.id == word_id then
                { o with
                  english_word := normSrc english r
                  khmer_word := (khmer.map pyStrip).getD o.khmer_word
                  word_type := word_type.getD o.word_type
                  definition := df.getD o.definition
                  example_sentence := ex.getD o.example_sentence
                  updated_at := now }
              else o),
            st.next_id⟩) := by
  unfold update_word
  rw [hf]

/-! ## Claim C2 (corrected) -/

/-- Whether a result of `update_word` (or `delete_word`) raised the
duplicate-entry error that `create_word` uses. -/
def raisedDuplicate : Except DbErr Bool → Bool
  | .error (.duplicate _) => true
  | _ => false

/-- C2 counterexample: renaming entry 1 to the other entry's `source_term`
is rejected, but with the generic update error (the single
`except Exception` of `update_word` re-raises the `IntegrityError` as
"Update error: ..."), not with the duplicate-entry error — so the failure is
not distinguishable as a `DuplicateEntry`, contrary to the claim.  The
entry retains its original `source_term`. -/
theorem update_word_collision_not_duplicate :
    (update_word none 5 ⟨[⟨1, codes "a", codes "k1", codes "noun", [], [], 0, 0⟩,
                          ⟨2, codes "b", codes "k2", codes "noun", [], [], 0, 0⟩], 3⟩ 1
        (some (codes "b")) none none none none).1
      = .error (.updateError uniqueFailMsg) ∧
    raisedDuplicate
        (update_word none 5 ⟨[⟨1, codes "a", codes "k1", codes "noun", [], [], 0, 0⟩,
                              ⟨2, codes "b", codes "k2", codes "noun", [], [], 0, 0⟩], 3⟩ 1
          (some (codes "b")) none none none none).1
      = false ∧
    (update_word none 5 ⟨[⟨1, codes "a", codes "k1", codes "noun", [], [], 0, 0⟩,
                          ⟨2, codes "b", codes "k2", codes "noun", [], [], 0, 0⟩], 3⟩ 1
        (some (codes "b")) none none none none).2
      = ⟨[⟨1, codes "a", codes "k1", codes "noun", [], [], 0, 0⟩,
          ⟨2, codes "b", codes "k2", codes "noun", [], [], 0, 0⟩], 3⟩ := by
  decide

/-- C2 (amended): `update(id, source_term=X)` where the normalised `X`
equals a different existing entry's `source_term` fails — but with the
generic "Update error" (the same error channel used for every other
update-time persistence fault, carrying the `UNIQUE`-constraint message),
not with a distinct duplicate-entry error — and the store is left
unchanged, so the entry at `id` retains its original `source_term`. -/
theorem update_word_collision_rejected (now : Nat) (st : DbState) (word_id : Nat)
    (X : Str) (okh ow odf oex : Option Str) (r1 r2 : Entry)
    (h1 : r1 ∈ st.entries) (hid : r1.id = word_id)
    (h2 : r2 ∈ st.entries) (hne : r2.id ≠ word_id)
    (hcol : r2.english_word = pyStrip (pyLower X)) :
    update_word none now st word_id (some X) okh ow odf oex
      = (.error (.updateError uniqueFailMsg), st) := by
  obtain ⟨r, hf⟩ : ∃ r, st.entries.find? (fun q => q.id == word_id) = some r := by
    match hfe : st.entries.find? (fun q => q.id == word_id) with
    | some x => exact ⟨x, hfe⟩
    | none =>
      have h := List.find?_eq_none.mp hfe r1 h1
      rw [hid] at h
      simp at h
  have hany : (st.entries.any fun o =>
      !(o.id == word_id) && o.english_word == normSrc (some X) r) = true := by
    rw [List.any_eq_true]
    refine ⟨r2, h2, ?_⟩
    simp only [normSrc, Bool.and_eq_true, Bool.not_eq_true', beq_eq_false_iff_ne, ne_eq,
      beq_iff_eq]
    exact ⟨fun h => hne (by simpa using h), hcol⟩
  unfold update_word
  rw [hf]
  simp only [if_pos hany]

/-- C2 witness for the amended theorem, at the counterexample's store. -/
theorem update_word_collision_rejected_witness :
    update_word none 5 ⟨[⟨1, codes "a", codes "k1", codes "noun", [], [], 0, 0⟩,
                         ⟨2, codes "b", codes "k2", codes "noun", [], [], 0, 0⟩], 3⟩ 1
        (some (codes "B ")) none none none none
      = (.error (.updateError uniqueFailMsg),
         ⟨[⟨1, codes "a", codes "k1", codes "noun", [], [], 0, 0⟩,
           ⟨2, codes "b", codes "k2", codes "noun", [], [], 0, 0⟩], 3⟩) :=
  update_word_collision_rejected 5
    ⟨[⟨1, codes "a", codes "k1", codes "noun", [], [], 0, 0⟩,
      ⟨2, codes "b", codes "k2", codes "noun", [], [], 0, 0⟩], 3⟩ 1
    (codes "B ") none none none none
    ⟨1, codes "a", codes "k1", codes "noun", [], [], 0, 0⟩
    ⟨2, codes "b", codes "k2", codes "noun", [], [], 0, 0⟩
    (by decide) (by decide) (by decide) (by decide) (by decide)

/-! ## Claim C6 -/

/-- C6: for a stored entry, `update(id)` with no supplied field returns
true and rewrites the store so that only that entry's `updated_at` changes
(every other field, and every other entry, is byte-identical); for an id
not present, the same call returns false and changes nothing. -/
theorem update_word_empty_fields (now : Nat) (st : DbState) (r : Entry) (j : Nat)
    (hwf : WF st) (hr : r ∈ st.entries) (hj : ∀ q ∈ st.entries, q.id ≠ j) :
    (update_word none now st r.id none none none none none).1 = .ok true ∧
    (update_word none now st r.id none none none none none).2.entries
      = st.entries.map (fun o => if o.id = r.id then { o with updated_at := now } else o) ∧
    update_word none now st j none none none none none = (.ok false, st) := by
  obtain ⟨hids, heng, -⟩ := hwf
  have h3 : update_word none now st j none none none none none = (.ok false, st) := by
    have hnone : st.entries.find? (fun q => q.id == j) = none := by
      rw [List.find?_eq_none]
      intro q hq
      simp [hj q hq]
    unfold update_word
    rw [hnone]
  obtain ⟨r', hf⟩ : ∃ r', st.entries.find? (fun q => q.id == r.id) = some r' := by
    match hfe : st.entries.find? (fun q => q.id == r.id) with
    | some x => exact ⟨x, hfe⟩
    | none =>
      have h := List.find?_eq_none.mp hfe r hr
      simp at h
  have hr'mem : r' ∈ st.entries := List.mem_of_find?_eq_some hf
  have hr'id : r'.id = r.id := by simpa using List.find?_some hf
  have hrr' : r' = r := List.inj_on_of_nodup_map hids hr'mem hr hr'id
  rw [hrr'] at hf
  have hany : (st.entries.any fun o =>
      !(o.id == r.id) && o.english_word == normSrc none r) = false := by
    rw [Bool.eq_false_iff]
    intro hcontra
    rw [List.any_eq_true] at hcontra
    obtain ⟨o, ho, hco⟩ := hcontra
    rw [Bool.and_eq_true] at hco
    have hoe : o.english_word = r.english_word := by
      have := hco.2
      simpa [normSrc] using this
    have hor : o = r := List.inj_on_of_nodup_map heng ho hr hoe
    rw [hor] at hco
    simp at hco
  have hcond : ¬ ((st.entries.any fun o =>
      !(o.id == r.id) && o.english_word == normSrc none r) = true) := by
    rw [hany]
    exact Bool.false_ne_true
  refine ⟨?_, ?_, h3⟩
  · rw [update_word_found hf, if_neg hcond]
  · rw [update_word_found hf, if_neg hcond]
    show st.entries.map _ = st.entries.map _
    apply List.map_congr_left
    intro o ho
    by_cases h : o.id = r.id
    · have hor : o = r := List.inj_on_of_nodup_map hids ho hr h
      rw [if_pos (show (o.id == r.id) = true by simp [h]), if_pos h, hor]
      rfl
    · rw [if_neg (show ¬ ((o.id == r.id) = true) by simp [h]), if_neg h]

/-- C6 witness at a concrete two-entry store and the absent id 99. -/
theorem update_word_empty_fields_witness :
    (update_word none 9 ⟨[⟨1, codes "a", codes "k1", codes "noun", [], [], 0, 0⟩,
                          ⟨2, codes "b", codes "k2", codes "noun", [], [], 0, 0⟩], 3⟩ 1
        none none none none none).1 = .ok true ∧
    (update_word none 9 ⟨[⟨1, codes "a", codes "k1", codes "noun", [], [], 0, 0⟩,
                          ⟨2, codes "b", codes "k2", codes "noun", [], [], 0, 0⟩], 3⟩ 1
        none none none none none).2.entries
      = [⟨1, codes "a", codes "k1", codes "noun", [], [], 0, 0⟩,
         ⟨2, codes "b", codes "k2", codes "noun", [], [], 0, 0⟩].map
          (fun o => if o.id = 1 then { o with updated_at := 9 } else o) ∧
    update_word none 9 ⟨[⟨1, codes "a", codes "k1", codes "noun", [], [], 0, 0⟩,
                         ⟨2, codes "b", codes "k2", codes "noun", [], [], 0, 0⟩], 3⟩ 99
        none none none none none
      = (.ok false, ⟨[⟨1, codes "a", codes "k1", codes "noun", [], [], 0, 0⟩,
                      ⟨2, codes "b", codes "k2", codes "noun", [], [], 0, 0⟩], 3⟩) :=
  update_word_empty_fields 9
    ⟨[⟨1, codes "a", codes "k1", codes "noun", [], [], 0, 0⟩,
      ⟨2, codes "b", codes "k2", codes "noun", [], [], 0, 0⟩], 3⟩
    ⟨1, codes "a", codes "k1", codes "noun", [], [], 0, 0⟩ 99
    (by decide) (by decide) (by decide)

/-! ## Claim C8 -/

/-- C8: however `ORDER BY RANDOM()` permutes the rows, `randomSample(n)` on
a store with `m` rows returns `min n m` entries, pairwise distinct, all of
them members of `listAll()`. -/
theorem get_random_words_spec (st : DbState) (shuffle : List Entry) (n : Nat)
    (hwf : WF st) (hperm : List.Perm shuffle st.entries) :
    (get_random_words none shuffle n).length = min n st.entries.length ∧
    (get_random_words none shuffle n).Pairwise (· ≠ ·) ∧
    get_random_words none shuffle n ⊆ read_all_words none st := by
  obtain ⟨hids, -, -⟩ := hwf
  have hnd : st.entries.Nodup := List.Nodup.of_map Entry.id hids
  have hsh : shuffle.Nodup := (List.Perm.nodup_iff hperm).mpr hnd
  refine ⟨?_, ?_, ?_⟩
  · show (shuffle.take n).length = _
    rw [List.length_take, hperm.length_eq]
  · exact hsh.sublist (List.take_sublist n shuffle)
  · intro r hrm
    have h1 : r ∈ shuffle := List.mem_of_mem_take hrm
    have h2 : r ∈ st.entries := hperm.mem_iff.mp h1
    show r ∈ st.entries.insertionSort srcLe
    rw [List.mem_insertionSort]
    exact h2

/-- C8 witness: a two-entry store sampled with `n = 5` under the reversing
shuffle yields both entries. -/
theorem get_random_words_spec_witness :
    (get_random_words none [⟨2, codes "b", codes "k2", codes "noun", [], [], 0, 0⟩,
                            ⟨1, codes "a", codes "k1", codes "noun", [], [], 0, 0⟩] 5).length
      = min 5 2 ∧
    (get_random_words none [⟨2, codes "b", codes "k2", codes "noun", [], [], 0, 0⟩,
                            ⟨1, codes "a", codes "k1", codes "noun", [], [], 0, 0⟩] 5).Pairwise
        (· ≠ ·) ∧
    get_random_words none [⟨2, codes "b", codes "k2", codes "noun", [], [], 0, 0⟩,
                           ⟨1, codes "a", codes "k1", codes "noun", [], [], 0, 0⟩] 5
      ⊆ read_all_words none ⟨[⟨1, codes "a", codes "k1", codes "noun", [], [], 0, 0⟩,
                              ⟨2, codes "b", codes "k2", codes "noun", [], [], 0, 0⟩], 3⟩ :=
  get_random_words_spec
    ⟨[⟨1, codes "a", codes "k1", codes "noun", [], [], 0, 0⟩,
      ⟨2, codes "b", codes "k2", codes "noun", [], [], 0, 0⟩], 3⟩
    [⟨2, codes "b", codes "k2", codes "noun", [], [], 0, 0⟩,
     ⟨1, codes "a", codes "k1", codes "noun", [], [], 0, 0⟩] 5
    (by decide) (by decide)

/-! ## Claim C4 (corrected) -/

/-- C4 counterexample: for the term `"_"` (a `LIKE` wildcard) the search
returns an entry whose `source_term` neither contains the term as a
(case-insensitive) substring nor equals it — `LIKE` treats `_` as
"any single character", so the claimed "exactly the entries whose
source_term contains term" is false for such terms. -/
theorem read_word_english_wildcard_counterexample :
    read_word none ⟨[⟨1, codes "a", codes "k", codes "noun", [], [], 0, 0⟩], 2⟩
        (codes "_") .english
      = [⟨1, codes "a", codes "k", codes "noun", [], [], 0, 0⟩] ∧
    ¬ (pyLower (codes "_") <:+: pyLower (codes "a")) ∧
    pyLower (codes "a") ≠ pyLower (codes "_") := by
  refine ⟨by decide, by decide, by decide⟩

/-- C4 (amended): for every term free of the `LIKE` wildcards `%` and `_`,
`findBySource(term)` returns exactly the entries whose `source_term`
contains the term as an ASCII-case-insensitive substring (the equality
clause adds nothing), sorted ascending by `source_term`, and — with no
error channel at all — the count of results is the count of matching rows,
hence empty when nothing matches. -/
theorem read_word_english_spec (st : DbState) (term : Str) (hw : noWild term = true) :
    read_word none st term .english
      = (st.entries.filter (fun r => decide (pyLower term <:+: pyLower r.english_word))
        ).insertionSort srcLe ∧
    (read_word none st term .english).Pairwise srcLe ∧
    (read_word none st term .english).length
      = st.entries.countP (fun r => decide (pyLower term <:+: pyLower r.english_word)) := by
  have hfilter : st.entries.filter (fun r =>
      like (likePat (pyLower term)) r.english_word || r.english_word == pyLower term)
      = st.entries.filter (fun r => decide (pyLower term <:+: pyLower r.english_word)) := by
    apply List.filter_congr
    intro r _
    rw [Bool.eq_iff_iff, Bool.or_eq_true, decide_eq_true_eq]
    constructor
    · rintro (h | h)
      · have h2 := (like_likePat_iff (noWild_pyLower hw) r.english_word).mp h
        rwa [pyLower_idem] at h2
      · have he : r.english_word = pyLower term := eq_of_beq h
        rw [he, pyLower_idem]
    · intro h
      left
      apply (like_likePat_iff (noWild_pyLower hw) r.english_word).mpr
      rwa [pyLower_idem]
  refine ⟨?_, ?_, ?_⟩
  · show (st.entries.filter _).insertionSort srcLe = _
    rw [hfilter]
  · show ((st.entries.filter _).insertionSort srcLe).Pairwise srcLe
    exact List.sorted_insertionSort srcLe _
  · show ((st.entries.filter _).insertionSort srcLe).length = _
    rw [(List.perm_insertionSort srcLe _).length_eq, hfilter, List.countP_eq_length_filter]

/-- C4 witness: searching `"LL"` in a store with `"bell"`, `"cat"` finds
exactly the `"bell"` row, sorted. -/
theorem read_word_english_spec_witness :
    read_word none ⟨[⟨1, codes "bell", codes "k1", codes "noun", [], [], 0, 0⟩,
                     ⟨2, codes "cat", codes "k2", codes "noun", [], [], 0, 0⟩], 3⟩
        (codes "LL") .english
      = ((⟨[⟨1, codes "bell", codes "k1", codes "noun", [], [], 0, 0⟩,
            ⟨2, codes "cat", codes "k2", codes "noun", [], [], 0, 0⟩], 3⟩ : DbState).entries.filter
          (fun r => decide (pyLower (codes "LL") <:+: pyLower r.english_word))).insertionSort
          srcLe ∧
    (read_word none ⟨[⟨1, codes "bell", codes "k1", codes "noun", [], [], 0, 0⟩,
                      ⟨2, codes "cat", codes "k2", codes "noun", [], [], 0, 0⟩], 3⟩
        (codes "LL") .english).Pairwise srcLe ∧
    (read_word none ⟨[⟨1, codes "bell", codes "k1", codes "noun", [], [], 0, 0⟩,
                      ⟨2, codes "cat", codes "k2", codes "noun", [], [], 0, 0⟩], 3⟩
        (codes "LL") .english).length
      = (⟨[⟨1, codes "bell", codes "k1", codes "noun", [], [], 0, 0⟩,
           ⟨2, codes "cat", codes "k2", codes "noun", [], [], 0, 0⟩], 3⟩ : DbState).entries.countP
          (fun r => decide (pyLower (codes "LL") <:+: pyLower r.english_word)) :=
  read_word_english_spec
    ⟨[⟨1, codes "bell", codes "k1", codes "noun", [], [], 0, 0⟩,
      ⟨2, codes "cat", codes "k2", codes "noun", [], [], 0, 0⟩], 3⟩
    (codes "LL") (by decide)

/-! ## Claim C5 (corrected) -/

/-- C5 counterexample: `findByTarget("x")` returns the entry whose
`target_term` is `"X"`, although `"X"` does not contain `"x"` as a
case-sensitive substring: SQLite's `LIKE` folds ASCII case even though
`read_word` applies no explicit folding to the target term. -/
theorem read_word_khmer_case_counterexample :
    read_word none ⟨[⟨1, codes "x", codes "X", codes "noun", [], [], 0, 0⟩], 2⟩
        (codes "x") .khmer
      = [⟨1, codes "x", codes "X", codes "noun", [], [], 0, 0⟩] ∧
    ¬ (codes "x" <:+: codes "X") := by
  refine ⟨by decide, by decide⟩

/-- C5 (amended): for every term free of the `LIKE` wildcards `%` and `_`,
`findByTarget(term)` returns exactly the entries whose `target_term`
contains the term as an ASCII-case-insensitive substring (no folding is
applied to the term by the code, but SQLite's `LIKE` itself folds ASCII
letters), sorted ascending by `target_term`. -/
theorem read_word_khmer_spec (st : DbState) (term : Str) (hw : noWild term = true) :
    read_word none st term .khmer
      = (st.entries.filter (fun r => decide (pyLower term <:+: pyLower r.khmer_word))
        ).insertionSort tgtLe ∧
    (read_word none st term .khmer).Pairwise tgtLe ∧
    (read_word none st term .khmer).length
      = st.entries.countP (fun r => decide (pyLower term <:+: pyLower r.khmer_word)) := by
  have hfilter : st.entries.filter (fun r => like (likePat term) r.khmer_word)
      = st.entries.filter (fun r => decide (pyLower term <:+: pyLower r.khmer_word)) := by
    apply List.filter_congr
    intro r _
    rw [Bool.eq_iff_iff, decide_eq_true_eq]
    exact like_likePat_iff hw r.khmer_word
  refine ⟨?_, ?_, ?_⟩
  · show (st.entries.filter _).insertionSort tgtLe = _
    rw [hfilter]
  · show ((st.entries.filter _).insertionSort tgtLe).Pairwise tgtLe
    exact List.sorted_insertionSort tgtLe _
  · show ((st.entries.filter _).insertionSort tgtLe).length = _
    rw [(List.perm_insertionSort tgtLe _).length_eq, hfilter, List.countP_eq_length_filter]

/-- C5 witness: searching the target column for `"K"` in a store with
targets `"ka"`, `"zz"` finds exactly the `"ka"` row. -/
theorem read_word_khmer_spec_witness :
    read_word none ⟨[⟨1, codes "a", codes "ka", codes "noun", [], [], 0, 0⟩,
                     ⟨2, codes "b", codes "zz", codes "noun", [], [], 0, 0⟩], 3⟩
        (codes "K") .khmer
      = ((⟨[⟨1, codes "a", codes "ka", codes "noun", [], [], 0, 0⟩,
            ⟨2, codes "b", codes "zz", codes "noun", [], [], 0, 0⟩], 3⟩ : DbState).entries.filter
          (fun r => decide (pyLower (codes "K") <:+: pyLower r.khmer_word))).insertionSort
          tgtLe ∧
    (read_word none ⟨[⟨1, codes "a", codes "ka", codes "noun", [], [], 0, 0⟩,
                      ⟨2, codes "b", codes "zz", codes "noun", [], [], 0, 0⟩], 3⟩
        (codes "K") .khmer).Pairwise tgtLe ∧
    (read_word none ⟨[⟨1, codes "a", codes "ka", codes "noun", [], [], 0, 0⟩,
                      ⟨2, codes "b", codes "zz", codes "noun", [], [], 0, 0⟩], 3⟩
        (codes "K") .khmer).length
      = (⟨[⟨1, codes "a", codes "ka", codes "noun", [], [], 0, 0⟩,
           ⟨2, codes "b", codes "zz", codes "noun", [], [], 0, 0⟩], 3⟩ : DbState).entries.countP
          (fun r => decide (pyLower (codes "K") <:+: pyLower r.khmer_word)) :=
  read_word_khmer_spec
    ⟨[⟨1, codes "a", codes "ka", codes "noun", [], [], 0, 0⟩,
      ⟨2, codes "b", codes "zz", codes "noun", [], [], 0, 0⟩], 3⟩
    (codes "K") (by decide)

/-! ## Claim C3 (corrected) -/

/-- C3 counterexample: on the empty store, `add(" hello", ...)` succeeds
(storing the normalised `"hello"`), but `findBySource(" hello")` returns no
entry at all — the search lower-cases the term but does not trim it, so the
pattern `'% hello%'` cannot match the trimmed stored value.  The claimed
"exactly one Entry with the normalised fields" is false for untrimmed
source terms. -/
theorem create_then_find_whitespace_counterexample :
    (create_word none 0 ⟨[], 1⟩ (codes " hello") (codes "x") (codes "noun") [] []).1
      = .ok 1 ∧
    read_word none
        (create_word none 0 ⟨[], 1⟩ (codes " hello") (codes "x") (codes "noun") [] []).2
        (codes " hello") .english
      = [] := by
  refine ⟨by decide, by decide⟩

/-- C3 (amended): for every valid pair whose `source_term` carries no
surrounding whitespace and whose normalised `source_term` is not yet
stored, `add` succeeds returning the fresh id, and among the entries that
`findBySource(source_term)` then returns exactly one has the normalised
`source_term` — and its fields are exactly the normalised inputs
(`source_term` lower-cased and trimmed, `target_term` trimmed, the rest
verbatim).  (Entries merely containing the term as a substring may also be
returned, and an untrimmed `source_term` may find nothing, per the
counterexample.) -/
theorem create_then_find (now : Nat) (st : DbState) (s k ty df ex : Str)
    (htrim : pyStrip s = s)
    (hnew : ∀ r ∈ st.entries, r.english_word ≠ pyStrip (pyLower s)) :
    (create_word none now st s k ty df ex).1 = .ok st.next_id ∧
    ((read_word none (create_word none now st s k ty df ex).2 s .english).filter
        (fun r => r.english_word == pyLower s))
      = [⟨st.next_id, pyLower s, pyStrip k, ty, df, ex, now, now⟩] := by
  have hsrc : pyStrip (pyLower s) = pyLower s := by
    rw [pyStrip_pyLower, htrim]
  have hcond : ¬ ((st.entries.any fun r => r.english_word == pyStrip (pyLower s)) = true) := by
    rw [List.any_eq_true]
    rintro ⟨r, hr, hb⟩
    exact hnew r hr (eq_of_beq hb)
  have hcreate : create_word none now st s k ty df ex
      = (.ok st.next_id,
         ⟨st.entries ++ [⟨st.next_id, pyStrip (pyLower s), pyStrip k, ty, df, ex, now, now⟩],
          st.next_id + 1⟩) := by
    unfold create_word
    rw [if_neg hcond]
  refine ⟨by rw [hcreate], ?_⟩
  rw [hcreate, hsrc]
  show (((st.entries ++ [(⟨st.next_id, pyLower s, pyStrip k, ty, df, ex, now, now⟩ : Entry)]).filter
      (fun (r : Entry) =>
        like (likePat (pyLower s)) r.english_word || r.english_word == pyLower s)
    ).insertionSort srcLe).filter (fun (r : Entry) => r.english_word == pyLower s)
    = [⟨st.next_id, pyLower s, pyStrip k, ty, df, ex, now, now⟩]
  apply List.perm_singleton.mp
  refine ((List.perm_insertionSort srcLe _).filter _).trans ?_
  rw [List.filter_filter, List.filter_append]
  have h1 : st.entries.filter (fun a =>
      (a.english_word == pyLower s) &&
      (like (likePat (pyLower s)) a.english_word || a.english_word == pyLower s)) = [] := by
    rw [List.filter_eq_nil_iff]
    intro r hr
    rw [Bool.and_eq_true]
    rintro ⟨hQ, -⟩
    exact hnew r hr ((eq_of_beq hQ).trans hsrc.symm)
  have h2 : [(⟨st.next_id, pyLower s, pyStrip k, ty, df, ex, now, now⟩ : Entry)].filter
      (fun a =>
        (a.english_word == pyLower s) &&
        (like (likePat (pyLower s)) a.english_word || a.english_word == pyLower s))
      = [⟨st.next_id, pyLower s, pyStrip k, ty, df, ex, now, now⟩] := by
    have hP : like (likePat (pyLower s))
        (⟨st.next_id, pyLower s, pyStrip k, ty, df, ex, now, now⟩ : Entry).english_word
        = true := like_likePat_self (pyLower s)
    simp [hP]
  rw [h1, h2, List.nil_append]

/-- C3 witness: `add("Hello", " X ", "noun")` on the empty store, then
`findBySource("Hello")`, yields exactly the normalised entry
`("hello", "X")` with id 1. -/
theorem create_then_find_witness :
    (create_word none 0 ⟨[], 1⟩ (codes "Hello") (codes " X ") (codes "noun") [] []).1
      = .ok 1 ∧
    ((read_word none
        (create_word none 0 ⟨[], 1⟩ (codes "Hello") (codes " X ") (codes "noun") [] []).2
        (codes "Hello") .english).filter
        (fun r => r.english_word == pyLower (codes "Hello")))
      = [⟨1, codes "hello", codes "X", codes "noun", [], [], 0, 0⟩] :=
  create_then_find 0 ⟨[], 1⟩ (codes "Hello") (codes " X ") (codes "noun") [] []
    (by decide) (by decide)
